import Mathlib

/-!
Verification of the nutrition-analyzer cache service.

The repository has two variants of the same service:
* `src/main.py` (the "Root" variant): synchronous FastAPI handler
  `analyze_nutrition`, query-time TTL filter on `created_at`, cache write via
  `insert_one`.
* `src/backend/main.py` (the "Backend" variant): async handler `analyze` with
  helpers `norm_ingredients`, `make_hash`, `fetch_from_cache`, `write_cache`,
  `call_edamam`; stored `expires_at`, upsert cache write.

Python strings are modelled as `List Char`, timestamps as `Int` (seconds),
the opaque JSON payload as a type parameter, and the MongoDB collection as a
`List` of documents in insertion order (`find_one` returns the first match,
`update_one` updates the first match).  Store failures (unconfigured client,
raising reads, raising writes) are modelled by flags in the environment.
-/

set_option maxRecDepth 100000

/-! ## Python string primitives (`str.strip`, `str.lower`, `str.split`) -/

/-- Whitespace characters recognised by `str.strip` and `str.split`
(ASCII subset). -/
def pySpace (c : Char) : Bool :=
  c.toNat == 32 || c.toNat == 9 || c.toNat == 10 || c.toNat == 13 ||
    c.toNat == 11 || c.toNat == 12

/-- `str.strip()`: drop leading and trailing whitespace. -/
def pyStrip (l : List Char) : List Char :=
  ((l.dropWhile pySpace).reverse.dropWhile pySpace).reverse

/-- `str.lower()` on one character (ASCII range). -/
def lowerChar (c : Char) : Char :=
  if 65 ≤ c.toNat && c.toNat ≤ 90 then Char.ofNat (c.toNat + 32) else c

/-- `str.lower()` on a string. -/
def lowerL (l : List Char) : List Char := l.map lowerChar

/-- One `foldr` step grouping characters into whitespace-separated runs:
a whitespace character opens a new (possibly empty) group, any other
character is prepended to the current head group. -/
def wsFold (c : Char) (acc : List (List Char)) : List (List Char) :=
  if pySpace c then [] :: acc else (c :: acc.headD []) :: acc.tail

/-- Raw whitespace grouping (groups may be empty). -/
def splitRaw (l : List Char) : List (List Char) := l.foldr wsFold []

/-- `str.split()` with no separator: split on whitespace runs, discarding
empty fields. -/
def pySplit (l : List Char) : List (List Char) :=
  (splitRaw l).filter (fun w => !w.isEmpty)

/-- `sep.join(parts)`. -/
def joinWith (sep : List Char) : List (List Char) → List Char
  | [] => []
  | [w] => w
  | w :: v :: ws => w ++ sep ++ joinWith sep (v :: ws)

/-- Python truthiness of an optional string (`None` and `""` are falsy),
as used by `os.getenv` results and `dict.get` results. -/
def truthyOpt : Option (List Char) → Bool
  | none => false
  | some s => !s.isEmpty

/-- `a or b` for an optional string `a` with Python truthiness. -/
def pyOrStr (a : Option (List Char)) (b : List Char) : List Char :=
  match a with
  | some s => if s.isEmpty then b else s
  | none => b

/-! ## SHA-256 (`hashlib.sha256(...).hexdigest()`) -/

/-- 32-bit modulus. -/
def w32 : Nat := 4294967296

def add32 (a b : Nat) : Nat := (a + b) % w32

def rotr (n x : Nat) : Nat := ((x >>> n) ||| (x <<< (32 - n))) % w32

def bsig0 (x : Nat) : Nat := (rotr 2 x) ^^^ (rotr 13 x) ^^^ (rotr 22 x)

def bsig1 (x : Nat) : Nat := (rotr 6 x) ^^^ (rotr 11 x) ^^^ (rotr 25 x)

def ssig0 (x : Nat) : Nat := (rotr 7 x) ^^^ (rotr 18 x) ^^^ (x >>> 3)

def ssig1 (x : Nat) : Nat := (rotr 17 x) ^^^ (rotr 19 x) ^^^ (x >>> 10)

def chFn (x y z : Nat) : Nat := (x &&& y) ^^^ ((x ^^^ 4294967295) &&& z)

def majFn (x y z : Nat) : Nat := (x &&& y) ^^^ (x &&& z) ^^^ (y &&& z)

/-- The 64 SHA-256 round constants, in decimal. -/
def shaK : List Nat :=
  [1116352408, 1899447441, 3049323471, 3921009573, 961987163, 1508970993,
   2453635748, 2870763221, 3624381080, 310598401, 607225278, 1426881987,
   1925078388, 2162078206, 2614888103, 3248222580, 3835390401, 4022224774,
   264347078, 604807628, 770255983, 1249150122, 1555081692, 1996064986,
   2554220882, 2821834349, 2952996808, 3210313671, 3336571891, 3584528711,
   113926993, 338241895, 666307205, 773529912, 1294757372, 1396182291,
   1695183700, 1986661051, 2177026350, 2456956037, 2730485921, 2820302411,
   3259730800, 3345764771, 3516065817, 3600352804, 4094571909, 275423344,
   430227734, 506948616, 659060556, 883997877, 958139571, 1322822218,
   1537002063, 1747873779, 1955562222, 2024104815, 2227730452, 2361852424,
   2428436474, 2756734187, 3204031479, 3329325298]

/-- The SHA-256 initial hash value, in decimal. -/
def shaH0 : List Nat :=
  [1779033703, 3144134277, 1013904242, 2773480762,
   1359893119, 2600822924, 528734635, 1541459225]

/-- Big-endian rendering of `n` into `k` bytes. -/
def beBytes (k n : Nat) : List Nat :=
  (List.range k).map (fun i => (n >>> (8 * (k - 1 - i))) % 256)

/-- Big-endian word value of a byte list. -/
def beWord (bs : List Nat) : Nat := bs.foldl (fun a b => a * 256 + b) 0

/-- SHA-256 padding of a byte string. -/
def shaPad (msg : List Nat) : List Nat :=
  msg ++ 128 :: List.replicate ((64 - ((msg.length + 9) % 64)) % 64) 0 ++ beBytes 8 (8 * msg.length)

/-- Chunk bytes into big-endian 32-bit words; the first argument is fuel. -/
def toWordsF : Nat → List Nat → List Nat
  | 0, _ => []
  | _, [] => []
  | n + 1, l => beWord (l.take 4) :: toWordsF n (l.drop 4)

/-- Chunk bytes into 64-byte blocks; the first argument is fuel. -/
def toBlocksF : Nat → List Nat → List (List Nat)
  | 0, _ => []
  | _, [] => []
  | n + 1, l => l.take 64 :: toBlocksF n (l.drop 64)

/-- One step of the message-schedule extension; `w` holds the words produced
so far, latest first. -/
def stepW (w : List Nat) : Nat :=
  add32 (add32 (ssig1 (w.getD 1 0)) (w.getD 6 0)) (add32 (ssig0 (w.getD 14 0)) (w.getD 15 0))

def extendW : Nat → List Nat → List Nat
  | 0, w => w
  | n + 1, w => extendW n (stepW w :: w)

/-- The 64-word message schedule of one block. -/
def schedule (block : List Nat) : List Nat :=
  (extendW 48 (toWordsF block.length block).reverse).reverse

/-- One SHA-256 round on the 8-word working state. -/
def roundFn (st : List Nat) (w k : Nat) : List Nat :=
  let a := st.getD 0 0
  let b := st.getD 1 0
  let c := st.getD 2 0
  let d := st.getD 3 0
  let e := st.getD 4 0
  let f := st.getD 5 0
  let g := st.getD 6 0
  let h := st.getD 7 0
  let t1 := add32 (add32 (add32 h (bsig1 e)) (add32 (chFn e f g) k)) w
  let t2 := add32 (bsig0 a) (majFn a b c)
  [add32 t1 t2, a, b, c, add32 d t1, e, f, g]

def compressBlock (h : List Nat) (block : List Nat) : List Nat :=
  let st := ((schedule block).zip shaK).foldl (fun st p => roundFn st p.1 p.2) h
  (h.zip st).map (fun p => add32 p.1 p.2)

def hexDigit (n : Nat) : Char :=
  if n < 10 then Char.ofNat (48 + n) else Char.ofNat (87 + n)

/-- The 8 lowercase hex digits of a 32-bit word. -/
def wordHex (w : Nat) : List Char :=
  (List.range 8).map (fun i => hexDigit ((w >>> (28 - 4 * i)) % 16))

/-- SHA-256 digest of a byte string, rendered as lowercase hexadecimal. -/
def sha256hex (msg : List Nat) : List Char :=
  (((toBlocksF (shaPad msg).length (shaPad msg)).foldl compressBlock shaH0).map wordHex).foldr
    (fun w acc => w ++ acc) []

/-- UTF-8 bytes of one code point. -/
def utf8Char (n : Nat) : List Nat :=
  if n < 128 then [n]
  else if n < 2048 then [192 + n / 64, 128 + n % 64]
  else if n < 65536 then [224 + n / 4096, 128 + (n / 64) % 64, 128 + n % 64]
  else [240 + n / 262144, 128 + (n / 4096) % 64, 128 + (n / 64) % 64, 128 + n % 64]

/-- UTF-8 encoding of a string (`str.encode("utf-8")`). -/
def utf8 (s : List Char) : List Nat := (s.map (fun c => utf8Char c.toNat)).foldr (· ++ ·) []

/-! ## Shared request/response model -/

/-- The structured detail carried by an HTTP error: either a plain string,
the JSON body forwarded verbatim, or the wrapper dict
produced by the Root variant when the upstream body is not JSON. -/
inductive Detail (α : Type) where
  | text : List Char → Detail α
  | jsonBody : α → Detail α
  | msgWrap : List Char → Detail α
deriving DecidableEq

/-- How a request terminates abnormally: a raised `HTTPException`, or an
exception that no handler catches (surfaced by the framework as a 500). -/
inductive Err (α : Type) where
  | http : Nat → Detail α → Err α
  | unhandled : Err α
deriving DecidableEq

/-- The `AnalyzeResponse` schema: cache tag (`"hit"`/`"miss"`), hex key,
opaque payload. -/
structure AnalyzeResp (α : Type) where
  cache : List Char
  ingredients_hash : List Char
  data : α
deriving DecidableEq

/-- A provider (Edamam) HTTP response: status code, whether `r.json()`
parses, the parsed payload, the `message`/`error` fields of the parsed
body when it is an error object, and the raw text. -/
structure ProvResp (α : Type) where
  status : Nat
  jsonOk : Bool
  body : α
  jsonMessage : Option (List Char)
  jsonError : Option (List Char)
  text : List Char

/-- Per-request environment: configured credentials and TTL, the state of
the cache store client, the current time, and the provider. -/
structure Env (α : Type) where
  appId : Option (List Char)
  appKey : Option (List Char)
  ttl : Int
  dbConfigured : Bool
  readFails : Bool
  writeFails : Bool
  now : Int
  provider : List (List Char) → ProvResp α

deriving instance DecidableEq for Except

/-- What one handler invocation produces: the HTTP result, the store
contents afterwards, whether the provider HTTP request was attempted, and
whether the cache-lookup stage was reached. -/
structure Outcome (α σ : Type) where
  result : Except (Err α) (AnalyzeResp α)
  store : List σ
  providerCalled : Bool
  cacheRead : Bool
deriving DecidableEq

/-- Insert-or-update keyed by a predicate: the first matching element is
rewritten with `f`, and `ins` is appended when nothing matches
(MongoDB `update_one` with `upsert=True`). -/
def upsertFirst {β : Type} (p : β → Bool) (f : β → β) (ins : β) : List β → List β
  | [] => [ins]
  | d :: ds => if p d then f d :: ds else d :: upsertFirst p f ins ds

namespace Backend

/-- One entry of the `analyzercache` collection as written by
`src/backend/main.py` (`AnalyzerCache` in `src/backend/schemas.py`). -/
structure CacheDoc (α : Type) where
  ingredients_hash : List Char
  data : α
  created_at : Int
  updated_at : Int
  expires_at : Option Int
deriving DecidableEq

/-- Per-entry normalization in `norm_ingredients`:
`" ".join(s.strip().lower().split())`. -/
def normEntry (s : List Char) : List Char :=
  joinWith [' '] (pySplit (lowerL (pyStrip s)))

/-- `norm_ingredients` from `src/backend/main.py`. -/
def norm_ingredients (ingredients : List (List Char)) : List (List Char) :=
  (ingredients.filter (fun s => !s.isEmpty && !(pyStrip s).isEmpty)).map normEntry

/-- `make_hash` from `src/backend/main.py`. -/
def make_hash (ingredients : List (List Char)) : List Char :=
  sha256hex (utf8 (joinWith "\n".toList (norm_ingredients ingredients)))

/-- `fetch_from_cache` from `src/backend/main.py`: `None` when the store
is unconfigured or the read raises; otherwise a point lookup by hash,
discarded when the stored `expires_at` is a time before now. -/
def fetch_from_cache {α : Type} (env : Env α) (store : List (CacheDoc α)) (h : List Char) :
    Option α :=
  if env.dbConfigured = false then none
  else if env.readFails then none
  else
    match store.find? (fun d => d.ingredients_hash == h) with
    | none => none
    | some doc =>
      match doc.expires_at with
      | some e => if e < env.now then none else some doc.data
      | none => some doc.data

/-- `write_cache` from `src/backend/main.py`: best-effort upsert keyed by
the hash; `$set` rewrites `data`, `updated_at`, `expires_at`, while
`$setOnInsert` supplies `created_at` and the key only for a fresh insert. -/
def write_cache {α : Type} (env : Env α) (store : List (CacheDoc α)) (h : List Char) (data : α) :
    List (CacheDoc α) :=
  if env.dbConfigured = false then store
  else if env.writeFails then store
  else
    upsertFirst (fun d => d.ingredients_hash == h)
      (fun d => { d with data := data, updated_at := env.now,
                         expires_at := some (env.now + env.ttl) })
      { ingredients_hash := h, data := data, created_at := env.now, updated_at := env.now,
        expires_at := some (env.now + env.ttl) } store

/-- Best-effort extraction of the upstream error message in `call_edamam`:
`err.get("message") or err.get("error") or r.text`, falling back to the
raw text when the body is not JSON. -/
def edamamMessage {α : Type} (r : ProvResp α) : List Char :=
  if r.jsonOk then pyOrStr r.jsonMessage (pyOrStr r.jsonError r.text) else r.text

/-- `call_edamam` from `src/backend/main.py`; the boolean records whether
the provider HTTP request was attempted. -/
def call_edamam {α : Type} (env : Env α) (ingredients : List (List Char)) :
    Except (Err α) α × Bool :=
  if !truthyOpt env.appId || !truthyOpt env.appKey then
    (Except.error (Err.http 500 (Detail.text "Edamam credentials not configured".toList)), false)
  else
    let r := env.provider (norm_ingredients ingredients)
    if 400 ≤ r.status then
      (Except.error (Err.http r.status
        (Detail.text ("Edamam error: ".toList ++ edamamMessage r))), true)
    else if r.jsonOk then (Except.ok r.body, true)
    else (Except.error Err.unhandled, true)

/-- The `analyze` handler from `src/backend/main.py`. -/
def analyze {α : Type} (env : Env α) (store : List (CacheDoc α)) (ingredients : List (List Char)) :
    Outcome α (CacheDoc α) :=
  if ingredients.isEmpty || (norm_ingredients ingredients).isEmpty then
    ⟨Except.error (Err.http 400 (Detail.text "Provide at least one ingredient line".toList)),
      store, false, false⟩
  else
    let h := make_hash ingredients
    match fetch_from_cache env store h with
    | some cached => ⟨Except.ok ⟨"hit".toList, h, cached⟩, store, false, true⟩
    | none =>
      match call_edamam env ingredients with
      | (Except.error e, called) => ⟨Except.error e, store, called, true⟩
      | (Except.ok data, called) =>
        ⟨Except.ok ⟨"miss".toList, h, data⟩, write_cache env store h data, called, true⟩

end Backend

namespace Root

/-- One entry of the `analyzercache` collection as written by
`src/main.py`. -/
structure CacheDoc (α : Type) where
  ingredients : List (List Char)
  ingredients_hash : List Char
  result : α
  created_at : Int
  updated_at : Int
deriving DecidableEq

/-- Per-entry normalization in `src/main.py`: `i.strip().lower()`
(no collapsing of internal whitespace). -/
def normEntry (s : List Char) : List Char := lowerL (pyStrip s)

/-- The normalized list in `analyze_nutrition`:
`[i.strip().lower() for i in payload.ingredients if i and i.strip()]`. -/
def normalized (ingredients : List (List Char)) : List (List Char) :=
  (ingredients.filter (fun i => !i.isEmpty && !(pyStrip i).isEmpty)).map normEntry

/-- The cache key in `analyze_nutrition`:
`hashlib.sha256("\n".join(normalized).encode("utf-8")).hexdigest()`. -/
def ingredientsHash (ingredients : List (List Char)) : List Char :=
  sha256hex (utf8 (joinWith "\n".toList (normalized ingredients)))

/-- The `analyze_nutrition` handler from `src/main.py`.  The cache read
and write are not wrapped in any exception handler there, so a raising
store operation surfaces as an unhandled error. -/
def analyze_nutrition {α : Type} (env : Env α) (store : List (CacheDoc α))
    (ingredients : List (List Char)) : Outcome α (CacheDoc α) :=
  if !truthyOpt env.appId || !truthyOpt env.appKey then
    ⟨Except.error (Err.http 500 (Detail.text "Edamam credentials are not configured.".toList)),
      store, false, false⟩
  else
    let norm := normalized ingredients
    if norm.isEmpty then
      ⟨Except.error (Err.http 400 (Detail.text "Please provide at least one ingredient.".toList)),
        store, false, false⟩
    else
      let h := sha256hex (utf8 (joinWith "\n".toList norm))
      let cutoff := env.now - env.ttl
      let readRes : Except Unit (Option (CacheDoc α)) :=
        if env.dbConfigured then
          if env.readFails then Except.error ()
          else Except.ok (store.find?
            (fun d => d.ingredients_hash == h && decide (cutoff ≤ d.created_at)))
        else Except.ok none
      match readRes with
      | Except.error _ => ⟨Except.error Err.unhandled, store, false, true⟩
      | Except.ok (some doc) => ⟨Except.ok ⟨"hit".toList, h, doc.result⟩, store, false, true⟩
      | Except.ok none =>
        let r := env.provider norm
        if 400 ≤ r.status then
          ⟨Except.error (Err.http r.status
            (if r.jsonOk then Detail.jsonBody r.body else Detail.msgWrap r.text)),
            store, true, true⟩
        else if r.jsonOk = false then ⟨Except.error Err.unhandled, store, true, true⟩
        else if env.dbConfigured then
          if env.writeFails then ⟨Except.error Err.unhandled, store, true, true⟩
          else
            ⟨Except.ok ⟨"miss".toList, h, r.body⟩,
              store ++ [⟨norm, h, r.body, env.now, env.now⟩], true, true⟩
        else ⟨Except.ok ⟨"miss".toList, h, r.body⟩, store, true, true⟩

end Root

/-! ## Reference Key Deriver, following the wording of the spec -/

/-- Modelled from the spec (section 4.1, Key Deriver): normalize one entry by
trimming, collapsing internal whitespace runs to single spaces (rendered as
splitting the trimmed entry on whitespace runs and rejoining with single
spaces), and lowercasing. -/
def specNormEntry (s : List Char) : List Char :=
  lowerL (joinWith [' '] (pySplit (pyStrip s)))

/-- Modelled from the spec: drop entries that are empty after trimming and
normalize the rest. -/
def specNormList (xs : List (List Char)) : List (List Char) :=
  (xs.filter (fun s => !(pyStrip s).isEmpty)).map specNormEntry

/-- Modelled from the spec: join the normalized sequence with a newline
separator and return the lowercase-hex SHA-256 digest of the UTF-8 encoding
of the joined string. -/
def specDeriveKey (xs : List (List Char)) : List Char :=
  sha256hex (utf8 (joinWith "\n".toList (specNormList xs)))

/-! ## Concrete fixtures used by witnesses and counterexamples -/

/-- A successful provider response with payload `7`. -/
def okResp : ProvResp Nat := ⟨200, true, 7, none, none, []⟩

/-- A 403 provider response whose JSON body carries a `message` field. -/
def errResp403 : ProvResp Nat :=
  ⟨403, true, 0, some "invalid app_key".toList, none, "forbidden".toList⟩

/-- A fully configured healthy environment. -/
def baseEnv : Env Nat :=
  ⟨some "id".toList, some "key".toList, 3600, true, false, false, 1000000, fun _ => okResp⟩

/-- A one-line ingredient request. -/
def eggReq : List (List Char) := ["1 cup rice".toList]

/-- A Backend cache entry for `eggReq` with no expiry timestamp. -/
def hitDoc : Backend.CacheDoc Nat :=
  ⟨Backend.make_hash eggReq, 42, 0, 0, none⟩

/-- A Backend cache entry for `eggReq` whose stored expiry has passed. -/
def staleBDoc : Backend.CacheDoc Nat :=
  ⟨Backend.make_hash eggReq, 5, 0, 0, some 5⟩

/-- A Root cache entry for `eggReq` created at time 0. -/
def staleRDoc : Root.CacheDoc Nat :=
  ⟨[], Root.ingredientsHash eggReq, 5, 0, 0⟩

/-- The base environment with the provider answering 403. -/
def err403Env : Env Nat := { baseEnv with provider := fun _ => errResp403 }

/-- The base environment with the application id unconfigured. -/
def noCredsEnv : Env Nat := { baseEnv with appId := none }

/-! ## Sanity checks on the executable model -/

example :
    sha256hex (utf8 "abc".toList) =
      "ba7816bf8f01cfea414140de5dae2223b00361a396177a9cb410ff61f20015ad".toList := by
  decide

example : pyStrip "  1 cup   rice ".toList = "1 cup   rice".toList := by decide

example : Backend.normEntry "  1 Cup   RICE ".toList = "1 cup rice".toList := by decide

example : Root.normEntry "  1 Cup   RICE ".toList = "1 cup   rice".toList := by decide

example : Backend.norm_ingredients ["".toList, "  ".toList, " Egg ".toList] = ["egg".toList] := by
  decide

/-! ## Helper lemmas about the model -/

theorem isEmpty_false_of_norm {req : List (List Char)}
    (h : (Backend.norm_ingredients req).isEmpty = false) : req.isEmpty = false := by
  cases req with
  | nil => simp [Backend.norm_ingredients] at h
  | cons a l => rfl

theorem root_isEmpty_eq_backend (req : List (List Char)) :
    (Root.normalized req).isEmpty = (Backend.norm_ingredients req).isEmpty := by
  rw [Root.normalized, Backend.norm_ingredients]
  cases h : req.filter (fun i => !i.isEmpty && !(pyStrip i).isEmpty) <;> simp [h]

theorem fetch_none_of_noDb {α : Type} (env : Env α) (store : List (Backend.CacheDoc α))
    (h : List Char) (hdb : env.dbConfigured = false) :
    Backend.fetch_from_cache env store h = none := by
  rw [Backend.fetch_from_cache]
  simp [hdb]

theorem fetch_none_of_readFails {α : Type} (env : Env α) (store : List (Backend.CacheDoc α))
    (h : List Char) (hrf : env.readFails = true) :
    Backend.fetch_from_cache env store h = none := by
  rw [Backend.fetch_from_cache]
  by_cases hdb : env.dbConfigured = false <;> simp [hdb, hrf]

theorem upsertFirst_of_no_match {β : Type} {p : β → Bool} {f : β → β} {ins : β} :
    ∀ {l : List β}, (∀ d ∈ l, p d = false) → upsertFirst p f ins l = l ++ [ins]
  | [], _ => rfl
  | d :: ds, h => by
    rw [upsertFirst]
    have hd : p d = false := h d (List.mem_cons_self d ds)
    simp only [hd, Bool.false_eq_true, if_false, List.cons_append, List.cons.injEq, true_and]
    exact upsertFirst_of_no_match fun x hx => h x (List.mem_cons_of_mem d hx)

theorem countP_upsertFirst {β : Type} (p : β → Bool) (f : β → β) (ins : β)
    (hins : p ins = true) (hf : ∀ d, p (f d) = p d) :
    ∀ l : List β, (upsertFirst p f ins l).countP p = max (l.countP p) 1
  | [] => by simp [upsertFirst, List.countP_cons, hins]
  | d :: ds => by
    rw [upsertFirst]
    by_cases hd : p d = true
    · simp [List.countP_cons, hd, hf d, Nat.max_eq_left (Nat.le_add_left 1 _)]
    · have hd' : p d = false := by revert hd; cases p d <;> simp
      simp [hd', countP_upsertFirst p f ins hins hf ds, List.countP_cons]

/-! ## Claim theorems -/

/-- C6: a request whose ingredient list normalizes to the empty sequence is
rejected with HTTP 400 before any cache lookup or provider call, in both
variants (the Root variant checks credentials first, so its 400 is stated
under configured credentials). -/
theorem C6_empty_input_rejected {α : Type} (benv renv : Env α)
    (bstore : List (Backend.CacheDoc α)) (rstore : List (Root.CacheDoc α))
    (req : List (List Char))
    (hempty : (Backend.norm_ingredients req).isEmpty = true)
    (hid : truthyOpt renv.appId = true) (hkey : truthyOpt renv.appKey = true) :
    Backend.analyze benv bstore req =
      ⟨Except.error (Err.http 400 (Detail.text "Provide at least one ingredient line".toList)),
        bstore, false, false⟩ ∧
    Root.analyze_nutrition renv rstore req =
      ⟨Except.error (Err.http 400 (Detail.text "Please provide at least one ingredient.".toList)),
        rstore, false, false⟩ := by
  have hroot : (Root.normalized req).isEmpty = true := by
    rw [root_isEmpty_eq_backend]; exact hempty
  constructor
  · rw [Backend.analyze]; simp [hempty]
  · rw [Root.analyze_nutrition]; simp [hid, hkey, hroot]

/-- Witness for C6 at a concrete all-blank request. -/
theorem C6_empty_input_rejected_witness :
    Backend.analyze baseEnv [] ["  ".toList, "".toList] =
      ⟨Except.error (Err.http 400 (Detail.text "Provide at least one ingredient line".toList)),
        [], false, false⟩ ∧
    Root.analyze_nutrition baseEnv [] ["  ".toList, "".toList] =
      ⟨Except.error (Err.http 400 (Detail.text "Please provide at least one ingredient.".toList)),
        [], false, false⟩ :=
  C6_empty_input_rejected baseEnv baseEnv [] [] ["  ".toList, "".toList]
    (by decide) (by decide) (by decide)

/-- C3 counterexample: in the Root variant a cache read that raises is not
caught, so the request fails with an unhandled error instead of completing
with the provider result (the provider is never even consulted). -/
theorem C3_counterexample :
    (Root.analyze_nutrition { baseEnv with readFails := true } [] ["egg".toList]).result =
        Except.error Err.unhandled ∧
    (Root.analyze_nutrition { baseEnv with readFails := true } [] ["egg".toList]).providerCalled =
        false := by
  constructor <;> rfl

/-- C3 amended: the Backend variant absorbs every cache-store failure
(unconfigured store, raising read, raising write) and still completes with
the provider result; the Root variant absorbs only the unconfigured-store
case. -/
theorem C3_amended {α : Type} (benv renv : Env α)
    (bstore : List (Backend.CacheDoc α)) (rstore : List (Root.CacheDoc α))
    (req : List (List Char))
    (hbid : truthyOpt benv.appId = true) (hbkey : truthyOpt benv.appKey = true)
    (hbn : (Backend.norm_ingredients req).isEmpty = false)
    (hbs : (benv.provider (Backend.norm_ingredients req)).status < 400)
    (hbj : (benv.provider (Backend.norm_ingredients req)).jsonOk = true)
    (hrid : truthyOpt renv.appId = true) (hrkey : truthyOpt renv.appKey = true)
    (hrn : (Root.normalized req).isEmpty = false)
    (hrs : (renv.provider (Root.normalized req)).status < 400)
    (hrj : (renv.provider (Root.normalized req)).jsonOk = true) :
    (benv.dbConfigured = false →
      Backend.analyze benv bstore req =
        ⟨Except.ok ⟨"miss".toList, Backend.make_hash req,
            (benv.provider (Backend.norm_ingredients req)).body⟩, bstore, true, true⟩) ∧
    (benv.readFails = true →
      (Backend.analyze benv bstore req).result =
        Except.ok ⟨"miss".toList, Backend.make_hash req,
          (benv.provider (Backend.norm_ingredients req)).body⟩) ∧
    (benv.writeFails = true →
      Backend.fetch_from_cache benv bstore (Backend.make_hash req) = none →
      Backend.analyze benv bstore req =
        ⟨Except.ok ⟨"miss".toList, Backend.make_hash req,
            (benv.provider (Backend.norm_ingredients req)).body⟩, bstore, true, true⟩) ∧
    (renv.dbConfigured = false →
      Root.analyze_nutrition renv rstore req =
        ⟨Except.ok ⟨"miss".toList, Root.ingredientsHash req,
            (renv.provider (Root.normalized req)).body⟩, rstore, true, true⟩) := by
  have hbe : req.isEmpty = false := isEmpty_false_of_norm hbn
  have hbs' : ¬ (400 ≤ (benv.provider (Backend.norm_ingredients req)).status) :=
    Nat.not_le.mpr hbs
  have hrs' : ¬ (400 ≤ (renv.provider (Root.normalized req)).status) := Nat.not_le.mpr hrs
  refine ⟨fun hdb => ?_, fun hrf => ?_, fun hwf hfetch => ?_, fun hrdb => ?_⟩
  · rw [Backend.analyze]
    simp [hbe, hbn, fetch_none_of_noDb benv bstore _ hdb, Backend.call_edamam, hbid, hbkey,
      hbs', hbj, Backend.write_cache, hdb]
  · rw [Backend.analyze]
    simp [hbe, hbn, fetch_none_of_readFails benv bstore _ hrf, Backend.call_edamam, hbid, hbkey,
      hbs', hbj]
  · rw [Backend.analyze]
    simp [hbe, hbn, hfetch, Backend.call_edamam, hbid, hbkey, hbs', hbj,
      Backend.write_cache, hwf]
  · rw [Root.analyze_nutrition]
    simp [hrid, hrkey, hrn, hrdb, hrs', hrj, Root.ingredientsHash]

/-- Witness for C3 amended: with the store unconfigured, both variants still
answer with the provider payload. -/
theorem C3_amended_witness :
    Backend.analyze { baseEnv with dbConfigured := false } [] eggReq =
      ⟨Except.ok ⟨"miss".toList, Backend.make_hash eggReq, 7⟩, [], true, true⟩ ∧
    Root.analyze_nutrition { baseEnv with dbConfigured := false } [] eggReq =
      ⟨Except.ok ⟨"miss".toList, Root.ingredientsHash eggReq, 7⟩, [], true, true⟩ :=
  ⟨(C3_amended { baseEnv with dbConfigured := false } { baseEnv with dbConfigured := false }
      [] [] eggReq (by decide) (by decide) (by decide) (by decide) (by decide) (by decide)
      (by decide) (by decide) (by decide) (by decide)).1 rfl,
   (C3_amended { baseEnv with dbConfigured := false } { baseEnv with dbConfigured := false }
      [] [] eggReq (by decide) (by decide) (by decide) (by decide) (by decide) (by decide)
      (by decide) (by decide) (by decide) (by decide)).2.2.2 rfl⟩

/-- C7: when the provider answers with a status of at least 400, both
variants fail with that upstream status — the Backend variant carrying the
best-effort extracted message, the Root variant forwarding the parsed error
body (or wrapping the raw text) — and neither writes to the cache. -/
theorem C7_provider_error {α : Type} (benv renv : Env α)
    (bstore : List (Backend.CacheDoc α)) (rstore : List (Root.CacheDoc α))
    (req : List (List Char))
    (hbid : truthyOpt benv.appId = true) (hbkey : truthyOpt benv.appKey = true)
    (hbn : (Backend.norm_ingredients req).isEmpty = false)
    (hbm : Backend.fetch_from_cache benv bstore (Backend.make_hash req) = none)
    (hbs : 400 ≤ (benv.provider (Backend.norm_ingredients req)).status)
    (hrid : truthyOpt renv.appId = true) (hrkey : truthyOpt renv.appKey = true)
    (hrn : (Root.normalized req).isEmpty = false)
    (hrdb : renv.dbConfigured = true) (hrrf : renv.readFails = false)
    (hrm : ∀ d ∈ rstore, d.ingredients_hash = Root.ingredientsHash req →
             d.created_at + renv.ttl < renv.now)
    (hrs : 400 ≤ (renv.provider (Root.normalized req)).status) :
    Backend.analyze benv bstore req =
      ⟨Except.error (Err.http (benv.provider (Backend.norm_ingredients req)).status
          (Detail.text ("Edamam error: ".toList ++
            Backend.edamamMessage (benv.provider (Backend.norm_ingredients req))))),
        bstore, true, true⟩ ∧
    Root.analyze_nutrition renv rstore req =
      ⟨Except.error (Err.http (renv.provider (Root.normalized req)).status
          (if (renv.provider (Root.normalized req)).jsonOk then
            Detail.jsonBody (renv.provider (Root.normalized req)).body
           else Detail.msgWrap (renv.provider (Root.normalized req)).text)),
        rstore, true, true⟩ := by
  have hbe : req.isEmpty = false := isEmpty_false_of_norm hbn
  have hfind : rstore.find? (fun d =>
      d.ingredients_hash == sha256hex (utf8 (joinWith ['\n'] (Root.normalized req))) &&
      decide (renv.now ≤ d.created_at + renv.ttl)) = none := by
    rw [List.find?_eq_none]
    intro d hd
    rw [Root.ingredientsHash] at hrm
    simp only [Bool.and_eq_true, beq_iff_eq, decide_eq_true_eq, not_and]
    intro hh
    have h1 := hrm d hd hh
    omega
  constructor
  · rw [Backend.analyze]
    simp [hbe, hbn, hbm, Backend.call_edamam, hbid, hbkey, hbs]
  · rw [Root.analyze_nutrition]
    simp [hrid, hrkey, hrn, hrdb, hrrf, hfind, hrs]

/-- Witness for C7: a 403 provider response with a JSON `message` field. -/
theorem C7_provider_error_witness :
    Backend.analyze err403Env [] eggReq =
      ⟨Except.error (Err.http 403
          (Detail.text ("Edamam error: ".toList ++ "invalid app_key".toList))),
        [], true, true⟩ ∧
    Root.analyze_nutrition err403Env [] eggReq =
      ⟨Except.error (Err.http 403 (Detail.jsonBody 0)), [], true, true⟩ :=
  C7_provider_error err403Env err403Env [] [] eggReq (by decide) (by decide) (by decide)
    rfl (by decide) (by decide) (by decide) (by decide) (by decide) (by decide)
    (by intro d hd; simp at hd) (by decide)

/-- C8 counterexample: in the Backend variant, an analyze call with the
application id unconfigured does not fail when the cache holds a valid
entry — it returns a HIT. -/
theorem C8_counterexample :
    (Backend.analyze noCredsEnv [hitDoc] eggReq).result =
      Except.ok ⟨"hit".toList, Backend.make_hash eggReq, 42⟩ ∧
    (Backend.analyze noCredsEnv [hitDoc] eggReq).providerCalled = false := by
  constructor <;> rfl

/-- C8 amended: with a provider credential unconfigured, the Root variant
fails with HTTP 500 before doing anything at all, while the Backend variant
raises the HTTP 500 only on the cache-miss path, just before the provider
request would be sent; in both cases no provider call is attempted. -/
theorem C8_missing_credentials {α : Type} (benv renv : Env α)
    (bstore : List (Backend.CacheDoc α)) (rstore : List (Root.CacheDoc α))
    (req : List (List Char))
    (hrcred : truthyOpt renv.appId = false ∨ truthyOpt renv.appKey = false)
    (hbcred : truthyOpt benv.appId = false ∨ truthyOpt benv.appKey = false)
    (hbn : (Backend.norm_ingredients req).isEmpty = false)
    (hbm : Backend.fetch_from_cache benv bstore (Backend.make_hash req) = none) :
    Root.analyze_nutrition renv rstore req =
      ⟨Except.error (Err.http 500
          (Detail.text "Edamam credentials are not configured.".toList)),
        rstore, false, false⟩ ∧
    Backend.analyze benv bstore req =
      ⟨Except.error (Err.http 500
          (Detail.text "Edamam credentials not configured".toList)),
        bstore, false, true⟩ := by
  have hbe : req.isEmpty = false := isEmpty_false_of_norm hbn
  constructor
  · rw [Root.analyze_nutrition]
    rcases hrcred with h | h <;> simp [h]
  · rw [Backend.analyze]
    rcases hbcred with h | h <;>
      simp [hbe, hbn, hbm, Backend.call_edamam, h]

/-- Witness for C8 amended at an environment missing the application id. -/
theorem C8_missing_credentials_witness :
    Root.analyze_nutrition noCredsEnv [] eggReq =
      ⟨Except.error (Err.http 500
          (Detail.text "Edamam credentials are not configured.".toList)),
        [], false, false⟩ ∧
    Backend.analyze noCredsEnv [] eggReq =
      ⟨Except.error (Err.http 500
          (Detail.text "Edamam credentials not configured".toList)),
        [], false, true⟩ :=
  C8_missing_credentials noCredsEnv noCredsEnv [] [] eggReq (Or.inl (by decide))
    (Or.inl (by decide)) (by decide) rfl

/-- C10: in the Backend variant, a cache entry whose `expires_at` is absent
is never considered expired — whatever the current time and the entry age,
`fetch_from_cache` returns its payload and `analyze` answers HIT without
calling the provider. -/
theorem C10_missing_expiry_never_expires {α : Type} (env : Env α)
    (store : List (Backend.CacheDoc α)) (req : List (List Char))
    (doc : Backend.CacheDoc α)
    (hdb : env.dbConfigured = true) (hrf : env.readFails = false)
    (hn : (Backend.norm_ingredients req).isEmpty = false)
    (hfind : store.find? (fun d => d.ingredients_hash == Backend.make_hash req) = some doc)
    (hexp : doc.expires_at = none) :
    Backend.fetch_from_cache env store (Backend.make_hash req) = some doc.data ∧
    Backend.analyze env store req =
      ⟨Except.ok ⟨"hit".toList, Backend.make_hash req, doc.data⟩, store, false, true⟩ := by
  have hfetch : Backend.fetch_from_cache env store (Backend.make_hash req) = some doc.data := by
    rw [Backend.fetch_from_cache]
    simp [hdb, hrf, hfind, hexp]
  refine ⟨hfetch, ?_⟩
  rw [Backend.analyze]
  simp [isEmpty_false_of_norm hn, hn, hfetch]

/-- Witness for C10: an entry created at time 0 with no expiry still hits
arbitrarily far in the future. -/
theorem C10_missing_expiry_never_expires_witness :
    Backend.fetch_from_cache { baseEnv with now := 99999999 } [hitDoc]
        (Backend.make_hash eggReq) = some 42 ∧
    Backend.analyze { baseEnv with now := 99999999 } [hitDoc] eggReq =
      ⟨Except.ok ⟨"hit".toList, Backend.make_hash eggReq, 42⟩, [hitDoc], false, true⟩ :=
  C10_missing_expiry_never_expires { baseEnv with now := 99999999 } [hitDoc] eggReq hitDoc
    rfl rfl (by decide) (by rfl) rfl

theorem root_find_none_of_stale {α : Type} (renv : Env α) (rstore : List (Root.CacheDoc α))
    (req : List (List Char))
    (hstale : ∀ d ∈ rstore, d.ingredients_hash = Root.ingredientsHash req →
      d.created_at + renv.ttl < renv.now) :
    rstore.find? (fun d =>
      d.ingredients_hash == sha256hex (utf8 (joinWith ['\n'] (Root.normalized req))) &&
      decide (renv.now ≤ d.created_at + renv.ttl)) = none := by
  rw [List.find?_eq_none]
  intro d hd
  rw [Root.ingredientsHash] at hstale
  simp only [Bool.and_eq_true, beq_iff_eq, decide_eq_true_eq, not_and]
  intro hh
  have h1 := hstale d hd hh
  omega

/-- C2: an entry that is stale — stored `expires_at` in the past for the
Backend variant, `created_at` plus TTL before now for the Root variant — is
treated as absent: the call is a MISS with a fresh provider call, although
the store still holds the stale document at read time. -/
theorem C2_ttl_expiry {α : Type} (benv renv : Env α)
    (bstore : List (Backend.CacheDoc α)) (rstore : List (Root.CacheDoc α))
    (req : List (List Char)) (bdoc : Backend.CacheDoc α) (rdoc : Root.CacheDoc α) (e : Int)
    (hbid : truthyOpt benv.appId = true) (hbkey : truthyOpt benv.appKey = true)
    (hbn : (Backend.norm_ingredients req).isEmpty = false)
    (hbdb : benv.dbConfigured = true) (hbrf : benv.readFails = false)
    (hbfind : bstore.find? (fun d => d.ingredients_hash == Backend.make_hash req) = some bdoc)
    (hbexp : bdoc.expires_at = some e) (hbe : e < benv.now)
    (hbs : (benv.provider (Backend.norm_ingredients req)).status < 400)
    (hbj : (benv.provider (Backend.norm_ingredients req)).jsonOk = true)
    (hrid : truthyOpt renv.appId = true) (hrkey : truthyOpt renv.appKey = true)
    (hrn : (Root.normalized req).isEmpty = false)
    (hrdb : renv.dbConfigured = true) (hrrf : renv.readFails = false)
    (hrwf : renv.writeFails = false)
    (hrdoc : rdoc ∈ rstore) (_hrdh : rdoc.ingredients_hash = Root.ingredientsHash req)
    (hstale : ∀ d ∈ rstore, d.ingredients_hash = Root.ingredientsHash req →
      d.created_at + renv.ttl < renv.now)
    (hrs : (renv.provider (Root.normalized req)).status < 400)
    (hrj : (renv.provider (Root.normalized req)).jsonOk = true) :
    (bdoc ∈ bstore ∧
      Backend.analyze benv bstore req =
        ⟨Except.ok ⟨"miss".toList, Backend.make_hash req,
            (benv.provider (Backend.norm_ingredients req)).body⟩,
          Backend.write_cache benv bstore (Backend.make_hash req)
            (benv.provider (Backend.norm_ingredients req)).body, true, true⟩) ∧
    (rdoc ∈ (Root.analyze_nutrition renv rstore req).store ∧
      Root.analyze_nutrition renv rstore req =
        ⟨Except.ok ⟨"miss".toList, Root.ingredientsHash req,
            (renv.provider (Root.normalized req)).body⟩,
          rstore ++ [⟨Root.normalized req, Root.ingredientsHash req,
            (renv.provider (Root.normalized req)).body, renv.now, renv.now⟩], true, true⟩) := by
  have hbne : req.isEmpty = false := isEmpty_false_of_norm hbn
  have hbfetch : Backend.fetch_from_cache benv bstore (Backend.make_hash req) = none := by
    rw [Backend.fetch_from_cache]
    simp [hbdb, hbrf, hbfind, hbexp, hbe]
  have hbs' : ¬ (400 ≤ (benv.provider (Backend.norm_ingredients req)).status) :=
    Nat.not_le.mpr hbs
  have hrs' : ¬ (400 ≤ (renv.provider (Root.normalized req)).status) := Nat.not_le.mpr hrs
  have hroot : Root.analyze_nutrition renv rstore req =
      ⟨Except.ok ⟨"miss".toList, Root.ingredientsHash req,
          (renv.provider (Root.normalized req)).body⟩,
        rstore ++ [⟨Root.normalized req, Root.ingredientsHash req,
          (renv.provider (Root.normalized req)).body, renv.now, renv.now⟩], true, true⟩ := by
    rw [Root.analyze_nutrition]
    simp [hrid, hrkey, hrn, hrdb, hrrf, hrwf, root_find_none_of_stale renv rstore req hstale,
      hrs', hrj, Root.ingredientsHash]
  refine ⟨⟨List.mem_of_find?_eq_some hbfind, ?_⟩, ⟨?_, hroot⟩⟩
  · rw [Backend.analyze]
    simp [hbne, hbn, hbfetch, Backend.call_edamam, hbid, hbkey, hbs', hbj]
  · rw [hroot]
    exact List.mem_append_left _ hrdoc

/-- Witness for C2: a Backend entry whose expiry passed and a Root entry
created at time 0 with TTL 3600 at current time 1000000. -/
theorem C2_ttl_expiry_witness :
    (staleBDoc ∈ [staleBDoc] ∧
      Backend.analyze baseEnv [staleBDoc] eggReq =
        ⟨Except.ok ⟨"miss".toList, Backend.make_hash eggReq, 7⟩,
          Backend.write_cache baseEnv [staleBDoc] (Backend.make_hash eggReq) 7, true, true⟩) ∧
    (staleRDoc ∈ (Root.analyze_nutrition baseEnv [staleRDoc] eggReq).store ∧
      Root.analyze_nutrition baseEnv [staleRDoc] eggReq =
        ⟨Except.ok ⟨"miss".toList, Root.ingredientsHash eggReq, 7⟩,
          [staleRDoc] ++ [⟨Root.normalized eggReq, Root.ingredientsHash eggReq,
            7, 1000000, 1000000⟩], true, true⟩) :=
  C2_ttl_expiry baseEnv baseEnv [staleBDoc] [staleRDoc] eggReq staleBDoc staleRDoc 5
    (by decide) (by decide) (by decide) rfl rfl (by rfl) rfl (by decide)
    (by decide) (by decide) (by decide) (by decide) (by decide) rfl rfl rfl
    (by simp) (by rfl)
    (by intro d hd; simp at hd; subst hd; intro h1; decide)
    (by decide) (by decide)

/-- C1: cache round-trip in both variants.  After a miss with no entry for
the key, a successful provider call and a successful cache write, a second
analyze call with the identical ingredient list within the TTL returns HIT
with the same payload, leaves the store unchanged and does not invoke the
provider. -/
theorem C1_cache_round_trip {α : Type} (benv benv' renv renv' : Env α)
    (bstore : List (Backend.CacheDoc α)) (rstore : List (Root.CacheDoc α))
    (req : List (List Char))
    (hbid : truthyOpt benv.appId = true) (hbkey : truthyOpt benv.appKey = true)
    (hbn : (Backend.norm_ingredients req).isEmpty = false)
    (hbdb : benv.dbConfigured = true) (hbrf : benv.readFails = false)
    (hbwf : benv.writeFails = false)
    (habs : bstore.find? (fun d => d.ingredients_hash == Backend.make_hash req) = none)
    (hbs : (benv.provider (Backend.norm_ingredients req)).status < 400)
    (hbj : (benv.provider (Backend.norm_ingredients req)).jsonOk = true)
    (hbdb' : benv'.dbConfigured = true) (hbrf' : benv'.readFails = false)
    (httlB : benv'.now ≤ benv.now + benv.ttl)
    (hrid : truthyOpt renv.appId = true) (hrkey : truthyOpt renv.appKey = true)
    (hrn : (Root.normalized req).isEmpty = false)
    (hrdb : renv.dbConfigured = true) (hrrf : renv.readFails = false)
    (hrwf : renv.writeFails = false)
    (hrabs : ∀ d ∈ rstore, ¬ d.ingredients_hash = Root.ingredientsHash req)
    (hrs : (renv.provider (Root.normalized req)).status < 400)
    (hrj : (renv.provider (Root.normalized req)).jsonOk = true)
    (hrid' : truthyOpt renv'.appId = true) (hrkey' : truthyOpt renv'.appKey = true)
    (hrdb' : renv'.dbConfigured = true) (hrrf' : renv'.readFails = false)
    (httlR : renv'.now ≤ renv.now + renv'.ttl) :
    Backend.analyze benv bstore req =
      ⟨Except.ok ⟨"miss".toList, Backend.make_hash req,
          (benv.provider (Backend.norm_ingredients req)).body⟩,
        bstore ++ [⟨Backend.make_hash req, (benv.provider (Backend.norm_ingredients req)).body,
          benv.now, benv.now, some (benv.now + benv.ttl)⟩], true, true⟩ ∧
    Backend.analyze benv'
        (bstore ++ [⟨Backend.make_hash req, (benv.provider (Backend.norm_ingredients req)).body,
          benv.now, benv.now, some (benv.now + benv.ttl)⟩]) req =
      ⟨Except.ok ⟨"hit".toList, Backend.make_hash req,
          (benv.provider (Backend.norm_ingredients req)).body⟩,
        bstore ++ [⟨Backend.make_hash req, (benv.provider (Backend.norm_ingredients req)).body,
          benv.now, benv.now, some (benv.now + benv.ttl)⟩], false, true⟩ ∧
    Root.analyze_nutrition renv rstore req =
      ⟨Except.ok ⟨"miss".toList, Root.ingredientsHash req,
          (renv.provider (Root.normalized req)).body⟩,
        rstore ++ [⟨Root.normalized req, Root.ingredientsHash req,
          (renv.provider (Root.normalized req)).body, renv.now, renv.now⟩], true, true⟩ ∧
    Root.analyze_nutrition renv'
        (rstore ++ [⟨Root.normalized req, Root.ingredientsHash req,
          (renv.provider (Root.normalized req)).body, renv.now, renv.now⟩]) req =
      ⟨Except.ok ⟨"hit".toList, Root.ingredientsHash req,
          (renv.provider (Root.normalized req)).body⟩,
        rstore ++ [⟨Root.normalized req, Root.ingredientsHash req,
          (renv.provider (Root.normalized req)).body, renv.now, renv.now⟩], false, true⟩ := by
  have hbne : req.isEmpty = false := isEmpty_false_of_norm hbn
  have hbs' : ¬ (400 ≤ (benv.provider (Backend.norm_ingredients req)).status) :=
    Nat.not_le.mpr hbs
  have hrs' : ¬ (400 ≤ (renv.provider (Root.normalized req)).status) := Nat.not_le.mpr hrs
  have hAll : ∀ d ∈ bstore, (d.ingredients_hash == Backend.make_hash req) = false := by
    rw [List.find?_eq_none] at habs
    intro d hd
    have := habs d hd
    revert this
    cases d.ingredients_hash == Backend.make_hash req <;> simp
  have hbfetch : Backend.fetch_from_cache benv bstore (Backend.make_hash req) = none := by
    rw [Backend.fetch_from_cache]
    simp [hbdb, hbrf, habs]
  have hwrite : Backend.write_cache benv bstore (Backend.make_hash req)
      (benv.provider (Backend.norm_ingredients req)).body =
      bstore ++ [⟨Backend.make_hash req, (benv.provider (Backend.norm_ingredients req)).body,
        benv.now, benv.now, some (benv.now + benv.ttl)⟩] := by
    rw [Backend.write_cache]
    simp only [hbdb, hbwf, Bool.true_eq_false, if_false, Bool.false_eq_true]
    exact upsertFirst_of_no_match hAll
  have hfind2 : (bstore ++ [(⟨Backend.make_hash req,
      (benv.provider (Backend.norm_ingredients req)).body, benv.now, benv.now,
      some (benv.now + benv.ttl)⟩ : Backend.CacheDoc α)]).find?
      (fun d => d.ingredients_hash == Backend.make_hash req) =
      some ⟨Backend.make_hash req, (benv.provider (Backend.norm_ingredients req)).body,
        benv.now, benv.now, some (benv.now + benv.ttl)⟩ := by
    rw [List.find?_append, habs]
    simp
  have hfetch2 : Backend.fetch_from_cache benv'
      (bstore ++ [⟨Backend.make_hash req, (benv.provider (Backend.norm_ingredients req)).body,
        benv.now, benv.now, some (benv.now + benv.ttl)⟩]) (Backend.make_hash req) =
      some (benv.provider (Backend.norm_ingredients req)).body := by
    rw [Backend.fetch_from_cache]
    simp [hbdb', hbrf', hfind2, Int.not_lt.mpr httlB]
  have hrfind1 : rstore.find? (fun d =>
      d.ingredients_hash == sha256hex (utf8 (joinWith ['\n'] (Root.normalized req))) &&
      decide (renv.now ≤ d.created_at + renv.ttl)) = none :=
    root_find_none_of_stale renv rstore req (fun d hd hh => ((hrabs d hd) hh).elim)
  have hroot1 : Root.analyze_nutrition renv rstore req =
      ⟨Except.ok ⟨"miss".toList, Root.ingredientsHash req,
          (renv.provider (Root.normalized req)).body⟩,
        rstore ++ [⟨Root.normalized req, Root.ingredientsHash req,
          (renv.provider (Root.normalized req)).body, renv.now, renv.now⟩], true, true⟩ := by
    rw [Root.analyze_nutrition]
    simp [hrid, hrkey, hrn, hrdb, hrrf, hrwf, hrfind1, hrs', hrj, Root.ingredientsHash]
  refine ⟨?_, ?_, hroot1, ?_⟩
  · rw [Backend.analyze]
    simp [hbne, hbn, hbfetch, Backend.call_edamam, hbid, hbkey, hbs', hbj, hwrite]
  · rw [Backend.analyze]
    simp [hbne, hbn, hfetch2]
  · rw [Root.analyze_nutrition]
    simp [hrid', hrkey', hrn, hrdb', hrrf',
      root_find_none_of_stale renv' rstore req (fun d hd hh => ((hrabs d hd) hh).elim),
      httlR, Root.ingredientsHash]

/-- Witness for C1 with an empty store, TTL 3600 and a second call 1000
seconds later. -/
theorem C1_cache_round_trip_witness :
    Backend.analyze baseEnv [] eggReq =
      ⟨Except.ok ⟨"miss".toList, Backend.make_hash eggReq, 7⟩,
        [⟨Backend.make_hash eggReq, 7, 1000000, 1000000, some 1003600⟩], true, true⟩ ∧
    Backend.analyze { baseEnv with now := 1001000 }
        [⟨Backend.make_hash eggReq, 7, 1000000, 1000000, some 1003600⟩] eggReq =
      ⟨Except.ok ⟨"hit".toList, Backend.make_hash eggReq, 7⟩,
        [⟨Backend.make_hash eggReq, 7, 1000000, 1000000, some 1003600⟩], false, true⟩ ∧
    Root.analyze_nutrition baseEnv [] eggReq =
      ⟨Except.ok ⟨"miss".toList, Root.ingredientsHash eggReq, 7⟩,
        [⟨Root.normalized eggReq, Root.ingredientsHash eggReq, 7, 1000000, 1000000⟩],
        true, true⟩ ∧
    Root.analyze_nutrition { baseEnv with now := 1001000 }
        [⟨Root.normalized eggReq, Root.ingredientsHash eggReq, 7, 1000000, 1000000⟩] eggReq =
      ⟨Except.ok ⟨"hit".toList, Root.ingredientsHash eggReq, 7⟩,
        [⟨Root.normalized eggReq, Root.ingredientsHash eggReq, 7, 1000000, 1000000⟩],
        false, true⟩ :=
  C1_cache_round_trip baseEnv { baseEnv with now := 1001000 } baseEnv
    { baseEnv with now := 1001000 } [] [] eggReq
    (by decide) (by decide) (by decide) rfl rfl rfl rfl (by decide) (by decide)
    rfl rfl (by decide)
    (by decide) (by decide) (by decide) rfl rfl rfl
    (by intro d hd; simp at hd) (by decide) (by decide)
    (by decide) (by decide) rfl rfl (by decide)

theorem upsertFirst_found {β : Type} (p : β → Bool) (f : β → β) (ins : β) :
    ∀ (pre : List β) (doc : β) (post : List β), (∀ d ∈ pre, p d = false) → p doc = true →
      upsertFirst p f ins (pre ++ doc :: post) = pre ++ f doc :: post
  | [], doc, post, _, hdoc => by simp [upsertFirst, hdoc]
  | d :: pre, doc, post, hpre, hdoc => by
    have hd : p d = false := hpre d (List.mem_cons_self d pre)
    simp only [List.cons_append, upsertFirst, hd, Bool.false_eq_true, if_false,
      List.cons.injEq, true_and]
    exact upsertFirst_found p f ins pre doc post
      (fun x hx => hpre x (List.mem_cons_of_mem d hx)) hdoc

/-- C4 counterexample: the Root variant writes with `insert_one`, so a
write-through for a key that already has a (stale) entry leaves two
documents for that key in the store. -/
theorem C4_counterexample :
    ((Root.analyze_nutrition baseEnv [staleRDoc] eggReq).store.countP
      (fun d => d.ingredients_hash == Root.ingredientsHash eggReq)) = 2 := by
  decide

/-- C4 amended: the Backend write (`write_cache`) has upsert semantics —
it keeps at most one entry per key, and a write over an existing entry
rewrites the payload, update timestamp and expiry while preserving the
original creation timestamp; the Root variant instead appends a duplicate
document. -/
theorem C4_upsert_semantics {α : Type} (env : Env α) (store : List (Backend.CacheDoc α))
    (h : List Char) (data : α)
    (hdb : env.dbConfigured = true) (hwf : env.writeFails = false) :
    (store.countP (fun d => d.ingredients_hash == h) ≤ 1 →
      (Backend.write_cache env store h data).countP (fun d => d.ingredients_hash == h) ≤ 1) ∧
    (∀ pre doc post, store = pre ++ doc :: post →
      (∀ d ∈ pre, (d.ingredients_hash == h) = false) →
      doc.ingredients_hash = h →
      Backend.write_cache env store h data =
        pre ++ ⟨doc.ingredients_hash, data, doc.created_at, env.now,
          some (env.now + env.ttl)⟩ :: post) := by
  constructor
  · intro hle
    rw [Backend.write_cache]
    simp only [hdb, hwf, Bool.true_eq_false, if_false, Bool.false_eq_true]
    rw [@countP_upsertFirst (Backend.CacheDoc α) (fun d => d.ingredients_hash == h)
      (fun d => ⟨d.ingredients_hash, data, d.created_at, env.now, some (env.now + env.ttl)⟩)
      ⟨h, data, env.now, env.now, some (env.now + env.ttl)⟩ (by simp) (fun d => rfl) store]
    omega
  · intro pre doc post hsplit hpre hdoc
    subst hsplit
    rw [Backend.write_cache]
    simp only [hdb, hwf, Bool.true_eq_false, if_false, Bool.false_eq_true]
    exact upsertFirst_found _ _ _ pre doc post hpre (by simp [hdoc])

/-- Witness for C4 amended: overwriting the single entry for a literal key
keeps one entry and preserves its creation time 5. -/
theorem C4_upsert_semantics_witness :
    (Backend.write_cache baseEnv [⟨"k".toList, 1, 5, 6, some 99⟩] "k".toList 9).countP
        (fun d => d.ingredients_hash == "k".toList) ≤ 1 ∧
    Backend.write_cache baseEnv [⟨"k".toList, 1, 5, 6, some 99⟩] "k".toList 9 =
      [⟨"k".toList, 9, 5, 1000000, some 1003600⟩] :=
  ⟨(C4_upsert_semantics baseEnv [⟨"k".toList, 1, 5, 6, some 99⟩] "k".toList 9 rfl rfl).1
      (by decide),
   (C4_upsert_semantics baseEnv [⟨"k".toList, 1, 5, 6, some 99⟩] "k".toList 9 rfl rfl).2
      [] ⟨"k".toList, 1, 5, 6, some 99⟩ [] rfl (by intro d hd; simp at hd) rfl⟩

/-! ## Lemmas about the string primitives -/

theorem toNat_ofNat_valid {n : Nat} (h : n < 55296) : (Char.ofNat n).toNat = n := by
  rw [Char.ofNat, dif_pos (Or.inl h)]
  rfl

theorem lowerChar_toNat (c : Char) :
    (lowerChar c).toNat = if 65 ≤ c.toNat ∧ c.toNat ≤ 90 then c.toNat + 32 else c.toNat := by
  rw [lowerChar]
  by_cases h : 65 ≤ c.toNat ∧ c.toNat ≤ 90
  · rw [if_pos (by simp [h.1, h.2]), if_pos h, toNat_ofNat_valid (by omega)]
  · rw [if_neg (by simpa using fun h1 h2 => h ⟨h1, h2⟩), if_neg h]

theorem pySpace_lowerChar (c : Char) : pySpace (lowerChar c) = pySpace c := by
  rw [pySpace, pySpace, lowerChar_toNat]
  by_cases h : 65 ≤ c.toNat ∧ c.toNat ≤ 90
  · rw [if_pos h]
    have h1 := h.1
    have h2 := h.2
    have e1 : ∀ m : Nat, m < 65 → (c.toNat + 32 == m) = false ∧ (c.toNat == m) = false := by
      intro m hm
      constructor <;> · rw [beq_eq_false_iff_ne]; omega
    rw [(e1 32 (by omega)).1, (e1 32 (by omega)).2, (e1 9 (by omega)).1, (e1 9 (by omega)).2,
      (e1 10 (by omega)).1, (e1 10 (by omega)).2, (e1 13 (by omega)).1, (e1 13 (by omega)).2,
      (e1 11 (by omega)).1, (e1 11 (by omega)).2, (e1 12 (by omega)).1, (e1 12 (by omega)).2]
  · rw [if_neg h]

theorem lowerChar_idem (c : Char) : lowerChar (lowerChar c) = lowerChar c := by
  by_cases h : 65 ≤ c.toNat ∧ c.toNat ≤ 90
  · have ht : (lowerChar c).toNat = c.toNat + 32 := by rw [lowerChar_toNat, if_pos h]
    rw [lowerChar, if_neg]
    rw [ht]
    simp only [Bool.and_eq_true, decide_eq_true_eq, not_and]
    omega
  · have hc : lowerChar c = c := by
      rw [lowerChar, if_neg (by simpa using fun h1 h2 => h ⟨h1, h2⟩)]
    rw [hc, hc]

theorem mem_of_head? {α : Type} {l : List α} {a : α} (h : l.head? = some a) : a ∈ l := by
  cases l with
  | nil => simp at h
  | cons b t =>
    simp only [List.head?_cons, Option.some.injEq] at h
    subst h
    exact List.mem_cons_self b t

theorem splitRaw_cons (c : Char) (l : List Char) :
    splitRaw (c :: l) = wsFold c (splitRaw l) := rfl

theorem splitRaw_chars : ∀ (l : List Char), ∀ w ∈ splitRaw l, ∀ c ∈ w, pySpace c = false := by
  intro l
  induction l with
  | nil => intro w hw; simp [splitRaw] at hw
  | cons a l ih =>
    intro w hw c hc
    rw [splitRaw_cons, wsFold] at hw
    by_cases ha : pySpace a
    · rw [if_pos ha] at hw
      rcases List.mem_cons.mp hw with h | h
      · subst h; simp at hc
      · exact ih w h c hc
    · rw [if_neg ha] at hw
      rcases List.mem_cons.mp hw with h | h
      · subst h
        rcases List.mem_cons.mp hc with h1 | h1
        · subst h1; exact Bool.eq_false_iff.mpr ha
        · cases hsr : splitRaw l with
          | nil => rw [hsr] at h1; simp at h1
          | cons g gs =>
            rw [hsr] at h1
            simp only [List.headD_cons] at h1
            exact ih g (by rw [hsr]; exact List.mem_cons_self g gs) c h1
      · exact ih w (List.mem_of_mem_tail h) c hc

theorem splitRaw_sub : ∀ (l : List Char), ∀ w ∈ splitRaw l, ∀ c ∈ w, c ∈ l := by
  intro l
  induction l with
  | nil => intro w hw; simp [splitRaw] at hw
  | cons a l ih =>
    intro w hw c hc
    rw [splitRaw_cons, wsFold] at hw
    by_cases ha : pySpace a
    · rw [if_pos ha] at hw
      rcases List.mem_cons.mp hw with h | h
      · subst h; simp at hc
      · exact List.mem_cons_of_mem a (ih w h c hc)
    · rw [if_neg ha] at hw
      rcases List.mem_cons.mp hw with h | h
      · subst h
        rcases List.mem_cons.mp hc with h1 | h1
        · rw [h1]; exact List.mem_cons_self _ _
        · cases hsr : splitRaw l with
          | nil => rw [hsr] at h1; simp at h1
          | cons g gs =>
            rw [hsr] at h1
            simp only [List.headD_cons] at h1
            exact List.mem_cons_of_mem a
              (ih g (by rw [hsr]; exact List.mem_cons_self g gs) c h1)
      · exact List.mem_cons_of_mem a (ih w (List.mem_of_mem_tail h) c hc)

theorem foldr_wsFold_word : ∀ (w : List Char) (acc : List (List Char)),
    (∀ c ∈ w, pySpace c = false) → w ≠ [] →
    w.foldr wsFold acc = (w ++ acc.headD []) :: acc.tail
  | [], _, _, hne => absurd rfl hne
  | [c], acc, hw, _ => by
    have hc : pySpace c = false := hw c (List.mem_cons_self c [])
    simp [wsFold, hc]
  | c :: d :: w, acc, hw, _ => by
    have hc : pySpace c = false := hw c (List.mem_cons_self c (d :: w))
    rw [List.foldr_cons,
      foldr_wsFold_word (d :: w) acc (fun x hx => hw x (List.mem_cons_of_mem c hx)) (by simp)]
    simp [wsFold, hc]

theorem pySplit_joinWith : ∀ (W : List (List Char)),
    (∀ w ∈ W, w ≠ [] ∧ ∀ c ∈ w, pySpace c = false) →
    pySplit (joinWith [' '] W) = W
  | [], _ => rfl
  | [w], hW => by
    have h1 := hW w (List.mem_cons_self w [])
    rw [joinWith, pySplit, splitRaw, foldr_wsFold_word w [] h1.2 h1.1]
    simp [List.filter_cons, h1.1, List.isEmpty_iff]
  | w :: v :: W, hW => by
    have h1 := hW w (List.mem_cons_self w (v :: W))
    have hrest : ∀ u ∈ v :: W, u ≠ [] ∧ ∀ c ∈ u, pySpace c = false :=
      fun u hu => hW u (List.mem_cons_of_mem w hu)
    have ih := pySplit_joinWith (v :: W) hrest
    rw [pySplit] at ih ⊢
    rw [joinWith]
    have hshape : w ++ [' '] ++ joinWith [' '] (v :: W) =
        w ++ ' ' :: joinWith [' '] (v :: W) := by
      rw [List.append_assoc]
      rfl
    rw [hshape, splitRaw, List.foldr_append]
    have hsp : List.foldr wsFold [] (' ' :: joinWith [' '] (v :: W)) =
        [] :: List.foldr wsFold [] (joinWith [' '] (v :: W)) := by
      rw [List.foldr_cons, wsFold, if_pos (by decide)]
    rw [hsp, foldr_wsFold_word w _ h1.2 h1.1]
    simp only [List.headD_cons, List.tail_cons, List.append_nil]
    rw [List.filter_cons, if_pos (by simp [List.isEmpty_iff, h1.1])]
    rw [show List.foldr wsFold [] (joinWith [' '] (v :: W)) = splitRaw (joinWith [' '] (v :: W))
      from rfl, ih]

theorem joinWith_ne_nil : ∀ {W : List (List Char)}, (∀ w ∈ W, w ≠ []) → W ≠ [] →
    joinWith [' '] W ≠ []
  | [], _, h => absurd rfl h
  | [w], hW, _ => by rw [joinWith]; exact hW w (List.mem_cons_self w [])
  | w :: v :: W, hW, _ => by
    rw [joinWith]
    simp

theorem join_clean_head : ∀ (W : List (List Char)),
    (∀ w ∈ W, w ≠ [] ∧ ∀ c ∈ w, pySpace c = false) →
    ∀ a, (joinWith [' '] W).head? = some a → pySpace a = false
  | [], _, a, ha => by simp [joinWith] at ha
  | [w], hW, a, ha => by
    rw [joinWith] at ha
    exact (hW w (List.mem_cons_self w [])).2 a (mem_of_head? ha)
  | w :: v :: W, hW, a, ha => by
    rw [joinWith] at ha
    have h1 := hW w (List.mem_cons_self w (v :: W))
    rw [List.append_assoc, List.head?_append] at ha
    cases hw : w.head? with
    | none =>
      rw [List.head?_eq_none_iff] at hw
      exact absurd hw h1.1
    | some b =>
      rw [hw] at ha
      simp only [Option.or_some, Option.some.injEq] at ha
      subst ha
      exact h1.2 b (mem_of_head? hw)

theorem join_clean_last : ∀ (W : List (List Char)),
    (∀ w ∈ W, w ≠ [] ∧ ∀ c ∈ w, pySpace c = false) →
    ∀ a, (joinWith [' '] W).reverse.head? = some a → pySpace a = false
  | [], _, a, ha => by simp [joinWith] at ha
  | [w], hW, a, ha => by
    rw [joinWith] at ha
    exact (hW w (List.mem_cons_self w [])).2 a (by
      have := mem_of_head? ha
      simpa using this)
  | w :: v :: W, hW, a, ha => by
    have hrest : ∀ u ∈ v :: W, u ≠ [] ∧ ∀ c ∈ u, pySpace c = false :=
      fun u hu => hW u (List.mem_cons_of_mem w hu)
    have hne : joinWith [' '] (v :: W) ≠ [] :=
      joinWith_ne_nil (fun u hu => (hrest u hu).1) (by simp)
    rw [joinWith, List.reverse_append, List.head?_append] at ha
    cases hj : (joinWith [' '] (v :: W)).reverse.head? with
    | none =>
      rw [List.head?_eq_none_iff, List.reverse_eq_nil_iff] at hj
      exact absurd hj hne
    | some b =>
      rw [hj] at ha
      simp only [Option.or_some, Option.some.injEq] at ha
      subst ha
      exact join_clean_last (v :: W) hrest b hj

theorem mem_joinWith : ∀ (W : List (List Char)) (sep : List Char) (c : Char),
    c ∈ joinWith sep W → c ∈ sep ∨ ∃ w, w ∈ W ∧ c ∈ w
  | [], _, c, h => by simp [joinWith] at h
  | [w], _, c, h => by
    rw [joinWith] at h
    exact Or.inr ⟨w, List.mem_cons_self w [], h⟩
  | w :: v :: W, sep, c, h => by
    rw [joinWith] at h
    rcases List.mem_append.mp h with h1 | h2
    · rcases List.mem_append.mp h1 with h3 | h4
      · exact Or.inr ⟨w, List.mem_cons_self w (v :: W), h3⟩
      · exact Or.inl h4
    · rcases mem_joinWith (v :: W) sep c h2 with h5 | ⟨u, hu, hcu⟩
      · exact Or.inl h5
      · exact Or.inr ⟨u, List.mem_cons_of_mem w hu, hcu⟩

theorem wsFold_lower (c : Char) (acc : List (List Char)) :
    wsFold (lowerChar c) (acc.map lowerL) = (wsFold c acc).map lowerL := by
  rw [wsFold, wsFold, pySpace_lowerChar]
  by_cases h : pySpace c
  · rw [if_pos h, if_pos h, List.map_cons]
    rfl
  · rw [if_neg h, if_neg h]
    cases acc with
    | nil => rfl
    | cons g gs => simp [lowerL]

theorem splitRaw_lower (l : List Char) : splitRaw (lowerL l) = (splitRaw l).map lowerL := by
  induction l with
  | nil => rfl
  | cons a l ih =>
    rw [lowerL, List.map_cons]
    rw [show splitRaw (lowerChar a :: List.map lowerChar l) =
      wsFold (lowerChar a) (splitRaw (List.map lowerChar l)) from rfl]
    rw [show List.map lowerChar l = lowerL l from rfl, ih, wsFold_lower, splitRaw_cons]

theorem pySplit_lower (l : List Char) : pySplit (lowerL l) = (pySplit l).map lowerL := by
  rw [pySplit, pySplit, splitRaw_lower, List.filter_map]
  congr 1
  apply List.filter_congr
  intro w _
  cases w <;> simp [lowerL, Function.comp]

theorem lowerL_joinWith : ∀ (W : List (List Char)) (sep : List Char),
    lowerL (joinWith sep W) = joinWith (lowerL sep) (W.map lowerL)
  | [], _ => rfl
  | [w], _ => rfl
  | w :: v :: W, sep => by
    rw [joinWith, List.map_cons, List.map_cons, joinWith, lowerL, List.map_append,
      List.map_append]
    rw [show List.map lowerChar (joinWith sep (v :: W)) = lowerL (joinWith sep (v :: W)) from rfl,
      lowerL_joinWith (v :: W) sep, List.map_cons]
    rfl

theorem pyStrip_def (l : List Char) :
    pyStrip l = List.rdropWhile pySpace (l.dropWhile pySpace) := rfl

theorem isPrefix_head? {α : Type} {l₁ l₂ : List α} (h : l₁ <+: l₂) (hne : l₁ ≠ []) :
    l₂.head? = l₁.head? := by
  obtain ⟨t, rfl⟩ := h
  cases l₁ with
  | nil => exact absurd rfl hne
  | cons a l => rfl

theorem pyStrip_head {l : List Char} : ∀ a, (pyStrip l).head? = some a → pySpace a = false := by
  intro a ha
  have hne : pyStrip l ≠ [] := by
    intro h0
    rw [h0] at ha
    simp at ha
  rw [pyStrip_def] at ha hne
  have hh := isPrefix_head? (List.rdropWhile_prefix pySpace (l.dropWhile pySpace)) hne
  have h2 := List.head?_dropWhile_not pySpace l
  rw [hh, ha] at h2
  exact h2

theorem pyStrip_last {l : List Char} :
    ∀ a, (pyStrip l).reverse.head? = some a → pySpace a = false := by
  intro a ha
  rw [pyStrip, List.reverse_reverse] at ha
  have h2 := List.head?_dropWhile_not pySpace (l.dropWhile pySpace).reverse
  rw [ha] at h2
  exact h2

theorem dropWhile_eq_self_of_head {l : List Char}
    (h : ∀ a, l.head? = some a → pySpace a = false) : l.dropWhile pySpace = l := by
  cases l with
  | nil => rfl
  | cons a l =>
    rw [List.dropWhile_cons_of_neg]
    simp [h a rfl]

theorem pyStrip_eq_self {l : List Char}
    (hhead : ∀ a, l.head? = some a → pySpace a = false)
    (hlast : ∀ a, l.reverse.head? = some a → pySpace a = false) :
    pyStrip l = l := by
  rw [pyStrip, dropWhile_eq_self_of_head hhead, dropWhile_eq_self_of_head hlast,
    List.reverse_reverse]

theorem pySplit_clean (l : List Char) :
    ∀ w ∈ pySplit l, w ≠ [] ∧ ∀ c ∈ w, pySpace c = false := by
  intro w hw
  rw [pySplit, List.mem_filter] at hw
  refine ⟨?_, splitRaw_chars l w hw.1⟩
  have := hw.2
  simpa [List.isEmpty_iff] using this

theorem pySplit_sub (l : List Char) : ∀ w ∈ pySplit l, ∀ c ∈ w, c ∈ l := by
  intro w hw
  rw [pySplit, List.mem_filter] at hw
  exact splitRaw_sub l w hw.1

theorem lowerL_idem (l : List Char) : lowerL (lowerL l) = lowerL l := by
  rw [lowerL, lowerL, List.map_map]
  have : lowerChar ∘ lowerChar = lowerChar := funext lowerChar_idem
  rw [this]

theorem backend_normEntry_idem (s : List Char) :
    Backend.normEntry (Backend.normEntry s) = Backend.normEntry s := by
  have hclean := pySplit_clean (lowerL (pyStrip s))
  have hstrip : pyStrip (Backend.normEntry s) = Backend.normEntry s := by
    rw [Backend.normEntry]
    exact pyStrip_eq_self (join_clean_head _ hclean) (join_clean_last _ hclean)
  have hlow : lowerL (Backend.normEntry s) = Backend.normEntry s := by
    rw [lowerL]
    have hfix : ∀ c ∈ Backend.normEntry s, lowerChar c = c := by
      intro c hc
      rw [Backend.normEntry] at hc
      rcases mem_joinWith _ _ c hc with hsep | ⟨w, hw, hcw⟩
      · have : c = ' ' := by simpa using hsep
        rw [this]
        decide
      · have hcl : c ∈ lowerL (pyStrip s) := pySplit_sub _ w hw c hcw
        rw [lowerL] at hcl
        rcases List.mem_map.mp hcl with ⟨d, _, rfl⟩
        exact lowerChar_idem d
    rw [List.map_congr_left hfix]
    simp
  conv_lhs => rw [Backend.normEntry, hstrip, hlow]
  rw [Backend.normEntry, pySplit_joinWith _ hclean]

theorem root_normEntry_idem (s : List Char) :
    Root.normEntry (Root.normEntry s) = Root.normEntry s := by
  have hth : ∀ a, (Root.normEntry s).head? = some a → pySpace a = false := by
    intro a ha
    rw [Root.normEntry, lowerL, List.head?_map] at ha
    cases hb : (pyStrip s).head? with
    | none => rw [hb] at ha; simp at ha
    | some b =>
      rw [hb] at ha
      have hab : lowerChar b = a := Option.some.inj ha
      rw [← hab, pySpace_lowerChar]
      exact pyStrip_head b hb
  have htl : ∀ a, (Root.normEntry s).reverse.head? = some a → pySpace a = false := by
    intro a ha
    rw [Root.normEntry, lowerL, ← List.map_reverse, List.head?_map] at ha
    cases hb : (pyStrip s).reverse.head? with
    | none => rw [hb] at ha; simp at ha
    | some b =>
      rw [hb] at ha
      have hab : lowerChar b = a := Option.some.inj ha
      rw [← hab, pySpace_lowerChar]
      exact pyStrip_last b hb
  conv_lhs => rw [Root.normEntry, pyStrip_eq_self hth htl]
  rw [Root.normEntry, lowerL_idem]

/-- C9: per-entry normalization is idempotent in both variants: the
trim-lowercase-split-rejoin of the Backend variant and the trim-lowercase
of the Root variant both satisfy normalize(normalize(s)) = normalize(s)
for every string. -/
theorem C9_normalize_idempotent (s : List Char) :
    Backend.normEntry (Backend.normEntry s) = Backend.normEntry s ∧
    Root.normEntry (Root.normEntry s) = Root.normEntry s :=
  ⟨backend_normEntry_idem s, root_normEntry_idem s⟩

theorem normEntry_eq_spec (s : List Char) : Backend.normEntry s = specNormEntry s := by
  rw [Backend.normEntry, specNormEntry, pySplit_lower, lowerL_joinWith]
  rw [show lowerL [' '] = [' '] from by decide]

theorem norm_filter_eq (xs : List (List Char)) :
    xs.filter (fun s => !s.isEmpty && !(pyStrip s).isEmpty) =
    xs.filter (fun s => !(pyStrip s).isEmpty) := by
  apply List.filter_congr
  intro s _
  cases s with
  | nil => simp [pyStrip]
  | cons a t => simp

/-- C5 counterexample: the claim fails on the Root variant, whose inline
derivation only trims and lowercases.  On an entry with an internal
whitespace run its normalized entry and its key differ from the reference
Key Deriver of the spec. -/
theorem C5_counterexample :
    Root.normalized ["a  b".toList] ≠ specNormList ["a  b".toList] ∧
    Root.ingredientsHash ["a  b".toList] ≠ specDeriveKey ["a  b".toList] := by
  constructor <;> decide

/-- C5 amended: the Backend Key Deriver (`norm_ingredients` plus
`make_hash`) agrees with the reference definition of the spec on every
input — same dropped entries, same normalized sequence, and the same
lowercase-hex SHA-256 key over the newline-joined UTF-8 encoding; the
inline derivation of the Root variant omits the collapsing of internal
whitespace runs. -/
theorem C5_key_derivation (xs : List (List Char)) :
    Backend.norm_ingredients xs = specNormList xs ∧
    Backend.make_hash xs = specDeriveKey xs := by
  have hn : Backend.norm_ingredients xs = specNormList xs := by
    rw [Backend.norm_ingredients, specNormList, norm_filter_eq]
    apply List.map_congr_left
    intro s _
    exact normEntry_eq_spec s
  exact ⟨hn, by rw [Backend.make_hash, specDeriveKey, hn]⟩
